import Mathlib

/-!
Verification of the consistency and notification core of a rented-room
management console (rooms, tenants, payments, notifications over a remote
store).

The definitions below are a shallow embedding of the source:

* `Occupancy` embeds the Rooms page logic: `handleTenantSelection` (the
  room-to-tenant assignment paired write) and `handleVacateRoom` (the
  clearing paired write).  Each remote `update` is modelled as a pure
  update of the corresponding record list; a failing remote write leaves
  the store unchanged and raises, which the source catches, converting it
  into an error message.  The two write outcomes are passed explicitly as
  booleans (`roomWriteOk`, `tenantWriteOk`).
* `Ledger` embeds the Payments page: the due-date range filter, the three
  financial aggregates, the sort-state toggle, the filtered-and-sorted
  view (the ES2019 `Array.prototype.sort` is stable; it is modelled by the
  stable `List.mergeSort` over the source's comparator), and the
  payment-recording submit handler.
* `NotifHub` embeds the NotificationProvider's four mutating operations,
  instrumented with an event trace recording the order of the remote
  write and the local cache update, plus the result surfaced to callers.
* `HubLifecycle` embeds the subscription lifecycle of the provider's
  effect: a scope switch synchronously requests cleanup of the previous
  effect run (attaching the unsubscribe to that run's setup promise) and
  starts a new run; a run's setup resolves asynchronously (session fetch,
  then subscribe); a requested cleanup can only fire after its run's
  setup has resolved.
* `ScopeFetch` embeds the data-loading effect of the Payments page: a
  scope switch issues a fetch tagged with the scope captured at request
  time, and an arriving response is applied to component state with no
  comparison against the scope active at arrival time.
-/

namespace Occupancy

inductive RoomStatus
  | vacant
  | occupied
  | maintenance
deriving DecidableEq, Repr

inductive TenantStatus
  | active
  | inactive
deriving DecidableEq, Repr

/-- A room record (`rooms` table row): the fields the occupancy logic touches. -/
structure Room where
  id : Nat
  name : String
  floor : String
  status : RoomStatus
  tenant_id : Option Nat
deriving DecidableEq, Repr

/-- A tenant record (`tenants` table row): the fields the occupancy logic touches. -/
structure Tenant where
  id : Nat
  name : String
  status : TenantStatus
  room_id : Option Nat
deriving DecidableEq, Repr

/-- The remote store as seen by the Rooms page: the two record lists. -/
structure OccState where
  rooms : List Room
  tenants : List Tenant
deriving DecidableEq, Repr

/-- The first write of `handleTenantSelection`:
`update(\x7b status: 'occupied', tenant_id: tenantId \x7d).eq('id', selectedRoom.id)`. -/
def assignRoomWrite (rooms : List Room) (roomId tenantId : Nat) : List Room :=
  rooms.map fun r =>
    if r.id = roomId then { r with status := .occupied, tenant_id := some tenantId } else r

/-- The second write of `handleTenantSelection`:
`update(\x7b room_id: selectedRoom.id \x7d).eq('id', tenantId)`. -/
def assignTenantWrite (tenants : List Tenant) (roomId tenantId : Nat) : List Tenant :=
  tenants.map fun t =>
    if t.id = tenantId then { t with room_id := some roomId } else t

/-- `handleTenantSelection` (the `assignTenant` operation): writes the room
first, then the tenant; a failing write throws, the catch sets an error
message; no other write is issued on the failure paths. -/
def handleTenantSelection (s : OccState) (selectedRoom : Room) (tenantId : Nat)
    (roomWriteOk tenantWriteOk : Bool) : OccState × Option String :=
  if roomWriteOk = false then
    (s, some "Gagal menambahkan penyewa ke kamar")
  else
    let s1 : OccState := { s with rooms := assignRoomWrite s.rooms selectedRoom.id tenantId }
    if tenantWriteOk = false then
      (s1, some "Gagal menambahkan penyewa ke kamar")
    else
      ({ s1 with tenants := assignTenantWrite s1.tenants selectedRoom.id tenantId }, none)

/-- The first write of `handleVacateRoom`:
`update(\x7b status: 'vacant', tenant_id: null \x7d).eq('id', room.id)`. -/
def vacateRoomWrite (rooms : List Room) (roomId : Nat) : List Room :=
  rooms.map fun r =>
    if r.id = roomId then { r with status := .vacant, tenant_id := none } else r

/-- The second write of `handleVacateRoom`:
`update(\x7b room_id: null \x7d).eq('id', room.tenant_id)`. -/
def vacateTenantWrite (tenants : List Tenant) (tenantId : Nat) : List Tenant :=
  tenants.map fun t =>
    if t.id = tenantId then { t with room_id := none } else t

/-- `handleVacateRoom` (the `vacateRoom` operation): returns immediately when
`room.tenant_id` is unset; otherwise writes the room first, then the tenant;
a failing write throws and the catch sets an error message.  The
`window.confirm` prompt is modelled as answered yes. -/
def handleVacateRoom (s : OccState) (room : Room)
    (roomWriteOk tenantWriteOk : Bool) : OccState × Option String :=
  match room.tenant_id with
  | none => (s, none)
  | some tid =>
    if roomWriteOk = false then
      (s, some "Gagal mengosongkan kamar")
    else
      let s1 : OccState := { s with rooms := vacateRoomWrite s.rooms room.id }
      if tenantWriteOk = false then
        (s1, some "Gagal mengosongkan kamar")
      else
        ({ s1 with tenants := vacateTenantWrite s1.tenants tid }, none)

/-- The tenant-selector list of the assignment modal:
`tenants.filter(tenant => tenant.status === 'active' && !tenant.room_id)`. -/
def availableTenants (tenants : List Tenant) : List Tenant :=
  tenants.filter fun t => decide (t.status = .active) && decide (t.room_id = none)

/-- Invariant 1: `room.tenantId = t.id` iff `tenant.roomId = room.id`
for every room/tenant pair. -/
def inv1 (s : OccState) : Prop :=
  ∀ r ∈ s.rooms, ∀ t ∈ s.tenants, (r.tenant_id = some t.id ↔ t.room_id = some r.id)

/-- Invariant 2: `room.status = occupied` iff `room.tenantId` is set, and
`room.status = vacant` implies `room.tenantId` is unset. -/
def inv2 (s : OccState) : Prop :=
  ∀ r ∈ s.rooms,
    (r.status = .occupied ↔ r.tenant_id ≠ none) ∧ (r.status = .vacant → r.tenant_id = none)

/-- Well-formedness from the schema: `id` is a primary key of both tables,
so the record lists carry no duplicate ids. -/
def wfIds (s : OccState) : Prop :=
  (s.rooms.map Room.id).Nodup ∧ (s.tenants.map Tenant.id).Nodup

/-- One completed (error-free) occupancy call made through the UI: the
assignment action is offered only on a vacant room card and the selector
lists only active, unassigned tenants; the vacate action passes a room of
the loaded list. -/
inductive GuardedCall : OccState → OccState → Prop
  | assign (s : OccState) (room : Room) (t : Tenant) :
      room ∈ s.rooms → room.status = .vacant →
      t ∈ s.tenants → t.status = .active → t.room_id = none →
      GuardedCall s (handleTenantSelection s room t.id true true).1
  | vacate (s : OccState) (room : Room) :
      room ∈ s.rooms →
      GuardedCall s (handleVacateRoom s room true true).1

/-- A state satisfying both invariants in which room 1 is occupied by
tenant 10 while tenant 20 is active and unassigned. -/
def cexOccRoom : Room := ⟨1, "A1", "1", .occupied, some 10⟩

def cexOccState : OccState :=
  ⟨[cexOccRoom], [⟨10, "Budi", .active, some 1⟩, ⟨20, "Siti", .active, none⟩]⟩

/-- A well-formed state satisfying both invariants, with room 1 vacant and
tenant 20 active and unassigned. -/
def okOccState : OccState := ⟨[⟨1, "A1", "1", .vacant, none⟩], [⟨20, "Siti", .active, none⟩]⟩

def okOccRoom : Room := ⟨1, "A1", "1", .vacant, none⟩

def okOccTenant : Tenant := ⟨20, "Siti", .active, none⟩

/-- A state with room 1 occupied by tenant 10 and room 2 vacant, whose
only tenant is already assigned. -/
def mixedOccState : OccState :=
  ⟨[⟨1, "A1", "1", .occupied, some 10⟩, ⟨2, "B2", "2", .vacant, none⟩],
    [⟨10, "Budi", .active, some 1⟩]⟩

def mixedOccRoom : Room := ⟨2, "B2", "2", .vacant, none⟩

def mixedOccTenant : Tenant := ⟨10, "Budi", .active, some 1⟩

end Occupancy

namespace Ledger

/-- JS code-unit lexicographic string comparison, as performed by the
`>=`/`<=` operators the due-date filter applies to ISO date strings. -/
def lexLe : List Char → List Char → Bool
  | [], _ => true
  | _ :: _, [] => false
  | a :: as, b :: bs =>
    if a.toNat < b.toNat then true
    else if b.toNat < a.toNat then false
    else lexLe as bs

def strLe (a b : String) : Bool := lexLe a.data b.data

/-- Three-way JS code-unit string comparison; models `localeCompare`
(whose sign on the ASCII names/room numbers used here agrees with
code-unit order). -/
def lexCompare : List Char → List Char → Int
  | [], [] => 0
  | [], _ :: _ => -1
  | _ :: _, [] => 1
  | a :: as, b :: bs =>
    if a.toNat < b.toNat then -1
    else if b.toNat < a.toNat then 1
    else lexCompare as bs

def strCompare (a b : String) : Int := lexCompare a.data b.data

/-- Numeric key of an ISO `YYYY-MM-DD` string: the fold of its digits.
`new Date(s).getTime()` is strictly monotone in the date for such strings,
and so is this key, so comparison results agree; the empty string (the
model of a null/absent date) yields `0`, exactly the `: 0` default the
comparator uses for a missing payment date. -/
def isoTime (s : String) : Int :=
  Int.ofNat ((s.data.filter Char.isDigit).foldl (fun n c => n * 10 + (c.toNat - 48)) 0)

inductive PayStatus
  | pending
  | overdue
  | paid
deriving DecidableEq, Repr

/-- A payment record.  String fields use `""` where the source holds
`null`/`''` (both JS-falsy, and the source normalizes `''` to `null`). -/
structure Payment where
  id : Nat
  tenantId : Option Nat
  roomId : Option Nat
  amount : Int
  dueDate : String
  date : String
  status : PayStatus
  paymentMethod : String
  notes : String
deriving DecidableEq, Repr

/-- A payment joined with its counterpart display names, as produced by
the `enhancedPayments` map. -/
structure EnhancedPayment extends Payment where
  tenantName : String
  roomNumber : String
deriving DecidableEq, Repr

/-- The fields of a tenant record the Payments page reads. -/
structure TenantRef where
  id : Nat
  name : String
deriving DecidableEq, Repr

/-- The fields of a room record the Payments page reads. -/
structure RoomRef where
  id : Nat
  number : String
deriving DecidableEq, Repr

/-- `enhancedPayments`: joins each payment with its tenant name and room
number, defaulting to `'Tidak Diketahui'` when the lookup fails. -/
def enhancedPayments (allPayments : List Payment) (tenants : List TenantRef)
    (rooms : List RoomRef) : List EnhancedPayment :=
  allPayments.map fun payment =>
    { toPayment := payment
      tenantName :=
        match tenants.find? fun t => decide (some t.id = payment.tenantId) with
        | some tenant => tenant.name
        | none => "Tidak Diketahui"
      roomNumber :=
        match rooms.find? fun r => decide (some r.id = payment.roomId) with
        | some room => room.number
        | none => "Tidak Diketahui" }

/-- The due-date range state; `""` is the empty (JS-falsy) input. -/
structure DateRange where
  start : String
  endDate : String
deriving DecidableEq, Repr

/-- `dateFilteredPayments`: every payment passes unless both bounds are
non-empty, in which case the due date must lie between them
(`payment.dueDate >= dateRange.start && payment.dueDate <= dateRange.end`). -/
def dateFilteredPayments (l : List EnhancedPayment) (dateRange : DateRange) :
    List EnhancedPayment :=
  l.filter fun payment =>
    if dateRange.start = "" ∨ dateRange.endDate = "" then true
    else strLe dateRange.start payment.dueDate && strLe payment.dueDate dateRange.endDate

/-- `totalPaid`: sum of the amounts of the date-filtered payments with
status `paid`. -/
def totalPaid (l : List EnhancedPayment) (dateRange : DateRange) : Int :=
  (((dateFilteredPayments l dateRange).filter fun p => decide (p.status = .paid)).foldl
    (fun sum p => sum + p.amount) 0)

/-- `totalPending`: sum of the amounts of the date-filtered payments with
status `pending`. -/
def totalPending (l : List EnhancedPayment) (dateRange : DateRange) : Int :=
  (((dateFilteredPayments l dateRange).filter fun p => decide (p.status = .pending)).foldl
    (fun sum p => sum + p.amount) 0)

/-- `totalOverdue`: sum of the amounts of the date-filtered payments with
status `overdue`. -/
def totalOverdue (l : List EnhancedPayment) (dateRange : DateRange) : Int :=
  (((dateFilteredPayments l dateRange).filter fun p => decide (p.status = .overdue)).foldl
    (fun sum p => sum + p.amount) 0)

inductive SortField
  | tenantName
  | roomNumber
  | amount
  | dueDate
  | date
deriving DecidableEq, Repr

inductive SortOrder
  | asc
  | desc
deriving DecidableEq, Repr

structure SortState where
  sortField : SortField
  sortOrder : SortOrder
deriving DecidableEq, Repr

/-- `handleSort`: a repeated request on the current field toggles the
order; a new field is installed with ascending order. -/
def handleSort (st : SortState) (field : SortField) : SortState :=
  if st.sortField = field then
    { st with sortOrder := if st.sortOrder = .asc then .desc else .asc }
  else
    { sortField := field, sortOrder := .asc }

/-- The `comparison` value computed by the sort callback for the current
sort field. -/
def comparePayments (field : SortField) (a b : EnhancedPayment) : Int :=
  match field with
  | .tenantName => strCompare a.tenantName b.tenantName
  | .roomNumber => strCompare a.roomNumber b.roomNumber
  | .amount => a.amount - b.amount
  | .dueDate => isoTime a.dueDate - isoTime b.dueDate
  | .date =>
    (if a.date = "" then 0 else isoTime a.date) - (if b.date = "" then 0 else isoTime b.date)

/-- The full comparator: `sortOrder === 'asc' ? comparison : -comparison`. -/
def sortComparator (st : SortState) (a b : EnhancedPayment) : Int :=
  if st.sortOrder = .asc then comparePayments st.sortField a b
  else - comparePayments st.sortField a b

/-- The non-strict order induced by the comparator, used to run the stable
sort. -/
def jsSortLe (st : SortState) (a b : EnhancedPayment) : Bool :=
  decide (sortComparator st a b ≤ 0)

def statusKey (s : PayStatus) : String :=
  match s with
  | .pending => "pending"
  | .overdue => "overdue"
  | .paid => "paid"

/-- ASCII lowercasing of one character; models `toLowerCase` on the
ASCII names handled here. -/
def lowerChar (c : Char) : Char :=
  if 65 ≤ c.toNat ∧ c.toNat ≤ 90 then Char.ofNat (c.toNat + 32) else c

/-- The search/status predicate of `filteredAndSortedPayments`:
case-insensitive substring match of the query against the tenant name, or
plain substring match against the room number; the status must equal the
filter unless the filter is `'all'`. -/
def matchesFilters (searchQuery statusFilter : String) (payment : EnhancedPayment) : Bool :=
  (decide ((searchQuery.data.map lowerChar) <:+: (payment.tenantName.data.map lowerChar))
      || decide (searchQuery.data <:+: payment.roomNumber.data))
    && (decide (statusFilter = "all") || decide (statusKey payment.status = statusFilter))

/-- `filteredAndSortedPayments`: the date-filtered list, search/status
filtered, then sorted by the comparator.  `Array.prototype.sort` is
required to be stable (ES2019) and any stable sort by the same total
comparator produces the same list, so it is modelled by the stable
`List.mergeSort`. -/
def filteredAndSortedPayments (l : List EnhancedPayment) (dateRange : DateRange)
    (searchQuery statusFilter : String) (st : SortState) : List EnhancedPayment :=
  ((dateFilteredPayments l dateRange).filter (matchesFilters searchQuery statusFilter)).mergeSort
    (jsSortLe st)

/-- A full submission of the payment form (`data` in
`handlePaymentSubmit`), after the handler's normalization of empty
strings to `null` (modelled by `""`/`none`). -/
structure PaymentFormData where
  tenantId : Option Nat
  roomId : Option Nat
  amount : Int
  dueDate : String
  date : String
  paymentMethod : String
  notes : String
deriving DecidableEq, Repr

/-- The record written over an existing payment:
`\x7b ...p, ...paymentData, status: 'paid' \x7d`. -/
def applyPaymentData (p : Payment) (d : PaymentFormData) : Payment :=
  { p with
    tenantId := d.tenantId
    roomId := d.roomId
    amount := d.amount
    dueDate := d.dueDate
    date := d.date
    paymentMethod := d.paymentMethod
    notes := d.notes
    status := .paid }

/-- `handlePaymentSubmit` in its record-payment branch (a payment is
selected): issues the remote update with `status: 'paid'` first; on
failure the catch surfaces an error message and the list is untouched; on
success the local list maps the same merge over the matching id. -/
def handlePaymentSubmit (allPayments : List Payment) (selectedPayment : Payment)
    (data : PaymentFormData) (remoteOk : Bool) : List Payment × Option String :=
  if remoteOk = false then
    (allPayments, some "Failed to save payment. Please try again.")
  else
    (allPayments.map fun p =>
      if p.id = selectedPayment.id then applyPaymentData p data else p, none)

/-- A sample payment record used by the concrete instances below. -/
def samplePayment (id : Nat) (amount : Int) (dueDate : String) (status : PayStatus) : Payment :=
  ⟨id, some 10, some 1, amount, dueDate, "", status, "", ""⟩

/-- A sample enhanced payment used by the concrete instances below. -/
def sampleEP (id : Nat) (amount : Int) (dueDate : String) (status : PayStatus) : EnhancedPayment :=
  ⟨samplePayment id amount dueDate status, "Budi", "101"⟩

/-- Payments spanning the three statuses, two inside and one outside the
sample range. -/
def sampleLedger : List EnhancedPayment :=
  [sampleEP 1 500000 "2025-05-01" .pending,
   sampleEP 2 300000 "2025-05-02" .paid,
   sampleEP 3 200000 "2025-07-01" .overdue]

def sampleRange : DateRange := ⟨"2025-05-01", "2025-06-30"⟩

def loneBoundRange : DateRange := ⟨"2025-05-01", ""⟩

/-- Two payments with equal amounts whose ids are in descending order. -/
def tiedA : EnhancedPayment := sampleEP 2 500000 "2025-05-01" .pending

def tiedB : EnhancedPayment := sampleEP 1 500000 "2025-05-02" .pending

def emptyRange : DateRange := ⟨"", ""⟩

/-- An already-paid payment on record. -/
def paidPayment : Payment :=
  ⟨5, some 10, some 1, 500000, "2025-05-01", "2025-05-02", .paid, "cash", "catatan lama"⟩

/-- A fresh form submission over it. -/
def resubmitData : PaymentFormData :=
  ⟨some 10, some 1, 500000, "2025-05-01", "2025-06-01", "transfer", "catatan baru"⟩

end Ledger

namespace NotifHub

inductive NotifStatus
  | unread
  | read
deriving DecidableEq, Repr

/-- A cached notification record: the fields the provider's mutating
operations touch. -/
structure Notification where
  id : Nat
  title : String
  message : String
  status : NotifStatus
deriving DecidableEq, Repr

/-- An observable event of a mutating operation: the remote write being
issued, or the local cache update being applied. -/
inductive CacheEvent
  | remoteWrite
  | localUpdate
deriving DecidableEq, Repr

/-- What one mutating operation leaves behind: the new local cache, the
error the caller's promise rejects with (`none` when it resolves
normally), and the ordered trace of its events. -/
structure OpResult where
  notifications : List Notification
  surfaced : Option String
  trace : List CacheEvent
deriving DecidableEq, Repr

/-- `markAsRead`: returns early without a session; otherwise awaits the
remote write and only then maps the matching cached entry to `read`.  A
remote failure is caught and logged, so the promise resolves normally and
the cache is untouched. -/
def markAsRead (notifications : List Notification) (id : Nat)
    (hasSession remoteOk : Bool) : OpResult :=
  if hasSession = false then ⟨notifications, none, []⟩
  else if remoteOk = false then ⟨notifications, none, [.remoteWrite]⟩
  else
    ⟨notifications.map fun n => if n.id = id then { n with status := .read } else n,
      none, [.remoteWrite, .localUpdate]⟩

/-- `markAllAsRead`: same shape, mapping every cached entry to `read`
after the remote write succeeds. -/
def markAllAsRead (notifications : List Notification)
    (hasSession remoteOk : Bool) : OpResult :=
  if hasSession = false then ⟨notifications, none, []⟩
  else if remoteOk = false then ⟨notifications, none, [.remoteWrite]⟩
  else
    ⟨notifications.map fun n => { n with status := .read },
      none, [.remoteWrite, .localUpdate]⟩

/-- `deleteNotification`: same shape, filtering the cached entry out after
the remote delete succeeds. -/
def deleteNotification (notifications : List Notification) (id : Nat)
    (hasSession remoteOk : Bool) : OpResult :=
  if hasSession = false then ⟨notifications, none, []⟩
  else if remoteOk = false then ⟨notifications, none, [.remoteWrite]⟩
  else
    ⟨notifications.filter fun n => decide (¬ n.id = id),
      none, [.remoteWrite, .localUpdate]⟩

/-- `createNotification`: same shape, prepending the record returned by
the remote insert after it succeeds. -/
def createNotification (notifications : List Notification)
    (newNotification : Notification) (hasSession remoteOk : Bool) : OpResult :=
  if hasSession = false then ⟨notifications, none, []⟩
  else if remoteOk = false then ⟨notifications, none, [.remoteWrite]⟩
  else ⟨newNotification :: notifications, none, [.remoteWrite, .localUpdate]⟩

/-- One of the provider's four mutating operations. -/
inductive NotifOp
  | mark (id : Nat)
  | markAll
  | del (id : Nat)
  | create (n : Notification)

/-- Dispatch of a mutating operation. -/
def runNotifOp (op : NotifOp) (notifications : List Notification)
    (hasSession remoteOk : Bool) : OpResult :=
  match op with
  | .mark id => markAsRead notifications id hasSession remoteOk
  | .markAll => markAllAsRead notifications hasSession remoteOk
  | .del id => deleteNotification notifications id hasSession remoteOk
  | .create n => createNotification notifications n hasSession remoteOk

/-- A sample unread cached notification. -/
def cexNotif : Notification := ⟨1, "judul", "pesan", .unread⟩

end NotifHub

namespace HubLifecycle

/-- One run of the provider's subscription effect.  `sessionResolved`
becomes true when the run's `getSession()` await completes (model of the
Authenticated case: it then immediately opens its channel subscription
and resolves its setup promise).  `cleanupRequested` becomes true when
React runs the effect's cleanup on a scope switch — the cleanup only
attaches the unsubscribe to the setup promise.  `unsubscribed` becomes
true when that attached continuation actually runs, which requires the
setup promise to have resolved. -/
structure EffectRun where
  scope : Nat
  sessionResolved : Bool
  cleanupRequested : Bool
  unsubscribed : Bool
deriving DecidableEq, Repr

/-- The effect runs started so far, oldest first; the last entry is the
run of the currently selected scope. -/
structure HubState where
  runs : List EffectRun
deriving DecidableEq, Repr

/-- A run whose subscription is currently live: its setup subscribed and
its unsubscribe has not yet run. -/
def isLive (r : EffectRun) : Bool := r.sessionResolved && !r.unsubscribed

/-- Number of live subscriptions. -/
def liveCount (s : HubState) : Nat := (s.runs.filter isLive).length

def markLastCleanup : List EffectRun → List EffectRun
  | [] => []
  | [r] => [{ r with cleanupRequested := true }]
  | r :: rest => r :: markLastCleanup rest

def freshRun (scope : Nat) : EffectRun :=
  ⟨scope, false, false, false⟩

/-- A scope switch: React synchronously runs the previous effect's
cleanup (which only schedules the old unsubscribe on the old setup
promise) and then starts the new effect run. -/
def switchStep (s : HubState) (scope : Nat) : HubState :=
  ⟨markLastCleanup s.runs ++ [freshRun scope]⟩

/-- Run `i`'s `getSession()` await completes: the run subscribes its
channel and resolves its setup promise. -/
def resolveStep (s : HubState) (i : Nat) : HubState :=
  ⟨s.runs.set i { s.runs.getD i (freshRun 0) with sessionResolved := true }⟩

/-- A requested cleanup whose setup promise has resolved fires: the old
channel is unsubscribed. -/
def fireStep (s : HubState) (i : Nat) : HubState :=
  ⟨s.runs.set i { s.runs.getD i (freshRun 0) with unsubscribed := true }⟩

/-- The provider mounted while authenticated with scope `scope`: one run,
its setup still awaiting the session. -/
def hubInit (scope : Nat) : HubState := ⟨[freshRun scope]⟩

/-- The asynchronous interleavings the source admits: scope switches are
synchronous; session resolutions of distinct in-flight setups complete in
any order; an attached unsubscribe fires only after its run's setup has
resolved. -/
inductive HubStep : HubState → HubState → Prop
  | switch (s : HubState) (scope : Nat) : HubStep s (switchStep s scope)
  | resolve (s : HubState) (i : Nat) :
      i < s.runs.length →
      (s.runs.getD i (freshRun 0)).sessionResolved = false →
      HubStep s (resolveStep s i)
  | fire (s : HubState) (i : Nat) :
      i < s.runs.length →
      (s.runs.getD i (freshRun 0)).cleanupRequested = true →
      (s.runs.getD i (freshRun 0)).sessionResolved = true →
      (s.runs.getD i (freshRun 0)).unsubscribed = false →
      HubStep s (fireStep s i)

/-- Every superseded run (all but the most recent) has had its teardown
requested. -/
def supersededMarked (s : HubState) : Prop :=
  ∀ i, i + 1 < s.runs.length → (s.runs.getD i (freshRun 0)).cleanupRequested = true

/-- A reachable state with two live subscriptions: the scope switched
while the first run's setup was still awaiting the session, then both
setups resolved, the new one first. -/
def hubBad : HubState :=
  ⟨[⟨0, true, true, false⟩, ⟨1, true, false, false⟩]⟩

end HubLifecycle

namespace ScopeFetch

/-- The Payments page as the scope-switch effect and `loadData` see it:
the currently selected scope, the scope whose records are currently held
in component state (`none` before any load completes), and the scopes
captured by the fetches still in flight. -/
structure PageState where
  activeScope : Option Nat
  storedScope : Option Nat
  inFlight : List Nat
deriving DecidableEq, Repr

/-- A scope selection: the effect observes the new scope and calls
`loadData`, which captures `selectedProperty.id` and issues the parallel
fetches (modelled as one request tagged with that scope). -/
def selectScope (s : PageState) (scope : Nat) : PageState :=
  ⟨some scope, s.storedScope, scope :: s.inFlight⟩

/-- A response for the request tagged `scope` arrives and resolves:
`loadData` stores the received records into component state.  No field of
the response nor any current scope id is compared before storing. -/
def applyLoadResponse (s : PageState) (scope : Nat) : PageState :=
  ⟨s.activeScope, some scope, s.inFlight.erase scope⟩

/-- The interleavings of scope switches and response arrivals. -/
inductive PageStep : PageState → PageState → Prop
  | select (s : PageState) (scope : Nat) : PageStep s (selectScope s scope)
  | respond (s : PageState) (scope : Nat) :
      scope ∈ s.inFlight → PageStep s (applyLoadResponse s scope)

/-- Initial page state: nothing selected, nothing loaded. -/
def pageInit : PageState := ⟨none, none, []⟩

/-- A reachable state holding scope-0 records while scope 1 is active:
the scope-0 fetch resolved after the switch to scope 1. -/
def pageBad : PageState := ⟨some 1, some 0, [1]⟩

end ScopeFetch

namespace Occupancy

theorem handleTenantSelection_ok (s : OccState) (room : Room) (tid : Nat) :
    handleTenantSelection s room tid true true =
      ({ rooms := assignRoomWrite s.rooms room.id tid,
         tenants := assignTenantWrite s.tenants room.id tid }, none) := rfl

theorem handleVacateRoom_ok (s : OccState) (room : Room) (tid : Nat)
    (h : room.tenant_id = some tid) :
    handleVacateRoom s room true true =
      ({ rooms := vacateRoomWrite s.rooms room.id,
         tenants := vacateTenantWrite s.tenants tid }, none) := by
  simp [handleVacateRoom, h]

theorem assignRoomWrite_map_id (rooms : List Room) (roomId tenantId : Nat) :
    (assignRoomWrite rooms roomId tenantId).map Room.id = rooms.map Room.id := by
  simp only [assignRoomWrite, List.map_map]
  apply List.map_congr_left
  intro r _
  simp only [Function.comp_apply]
  split <;> rfl

theorem assignTenantWrite_map_id (tenants : List Tenant) (roomId tenantId : Nat) :
    (assignTenantWrite tenants roomId tenantId).map Tenant.id = tenants.map Tenant.id := by
  simp only [assignTenantWrite, List.map_map]
  apply List.map_congr_left
  intro t _
  simp only [Function.comp_apply]
  split <;> rfl

theorem vacateRoomWrite_map_id (rooms : List Room) (roomId : Nat) :
    (vacateRoomWrite rooms roomId).map Room.id = rooms.map Room.id := by
  simp only [vacateRoomWrite, List.map_map]
  apply List.map_congr_left
  intro r _
  simp only [Function.comp_apply]
  split <;> rfl

theorem vacateTenantWrite_map_id (tenants : List Tenant) (tenantId : Nat) :
    (vacateTenantWrite tenants tenantId).map Tenant.id = tenants.map Tenant.id := by
  simp only [vacateTenantWrite, List.map_map]
  apply List.map_congr_left
  intro t _
  simp only [Function.comp_apply]
  split <;> rfl

theorem inv1_assign (s : OccState) (room : Room) (t : Tenant)
    (hnd : (s.tenants.map Tenant.id).Nodup)
    (h1 : inv1 s) (h2 : inv2 s)
    (hr : room ∈ s.rooms) (hv : room.status = .vacant)
    (ht : t ∈ s.tenants) (hu : t.room_id = none) :
    inv1 { rooms := assignRoomWrite s.rooms room.id t.id,
           tenants := assignTenantWrite s.tenants room.id t.id } := by
  have hroom_none : room.tenant_id = none := (h2 room hr).2 hv
  intro r' hr' t' ht'
  simp only [assignRoomWrite, assignTenantWrite, List.mem_map] at hr' ht'
  obtain ⟨r, hrmem, rfl⟩ := hr'
  obtain ⟨x, hxmem, rfl⟩ := ht'
  by_cases hri : r.id = room.id <;> by_cases hxi : x.id = t.id
  · -- both records are updated
    simp only [if_pos hri, if_pos hxi, hri, hxi]
    exact ⟨fun _ => rfl, fun _ => rfl⟩
  · -- room updated, tenant untouched
    simp only [if_pos hri, if_neg hxi]
    constructor
    · intro hl
      exact absurd (Option.some_injective _ hl).symm hxi
    · intro hx
      exfalso
      have hx' : x.room_id = some room.id := by rw [hx, hri]
      have := (h1 room hr x hxmem).mpr hx'
      rw [hroom_none] at this
      exact Option.noConfusion this
  · -- tenant updated, room untouched
    simp only [if_neg hri, if_pos hxi]
    have hxt : x = t := List.inj_on_of_nodup_map hnd hxmem ht hxi
    subst hxt
    constructor
    · intro hl
      exfalso
      have := (h1 r hrmem x hxmem).mp hl
      rw [hu] at this
      exact Option.noConfusion this
    · intro hx
      exact absurd (Option.some_injective _ hx).symm hri
  · -- neither record touched
    simp only [if_neg hri, if_neg hxi]
    exact h1 r hrmem x hxmem

theorem inv2_assign (s : OccState) (room : Room) (tid : Nat) (h2 : inv2 s) :
    inv2 { rooms := assignRoomWrite s.rooms room.id tid,
           tenants := assignTenantWrite s.tenants room.id tid } := by
  intro r' hr'
  simp only [assignRoomWrite, List.mem_map] at hr'
  obtain ⟨r, hrmem, rfl⟩ := hr'
  by_cases hri : r.id = room.id
  · simp only [if_pos hri]
    simp
  · simp only [if_neg hri]
    exact h2 r hrmem

theorem inv1_vacate (s : OccState) (room : Room) (tid : Nat)
    (h1 : inv1 s)
    (hr : room ∈ s.rooms) (htid : room.tenant_id = some tid) :
    inv1 { rooms := vacateRoomWrite s.rooms room.id,
           tenants := vacateTenantWrite s.tenants tid } := by
  intro r' hr' t' ht'
  simp only [vacateRoomWrite, vacateTenantWrite, List.mem_map] at hr' ht'
  obtain ⟨r, hrmem, rfl⟩ := hr'
  obtain ⟨x, hxmem, rfl⟩ := ht'
  by_cases hri : r.id = room.id <;> by_cases hxi : x.id = tid
  · -- both records cleared
    simp only [if_pos hri, if_pos hxi]
    constructor
    · intro hl
      exact Option.noConfusion hl
    · intro hx
      exact Option.noConfusion hx
  · -- room cleared, tenant untouched
    simp only [if_pos hri, if_neg hxi]
    constructor
    · intro hl
      exact Option.noConfusion hl
    · intro hx
      exfalso
      have hx' : x.room_id = some room.id := by rw [hx, hri]
      have := (h1 room hr x hxmem).mpr hx'
      rw [htid] at this
      exact hxi (Option.some_injective _ this).symm
  · -- tenant cleared, room untouched
    simp only [if_neg hri, if_pos hxi]
    constructor
    · intro hl
      exfalso
      have hx' := (h1 r hrmem x hxmem).mp hl
      have hroomx : room.tenant_id = some x.id := by rw [htid, hxi]
      have := (h1 room hr x hxmem).mp hroomx
      rw [hx'] at this
      exact hri (Option.some_injective _ this)
    · intro hx
      exact Option.noConfusion hx
  · -- neither record touched
    simp only [if_neg hri, if_neg hxi]
    exact h1 r hrmem x hxmem

theorem inv2_vacate (s : OccState) (room : Room) (tid : Nat) (h2 : inv2 s) :
    inv2 { rooms := vacateRoomWrite s.rooms room.id,
           tenants := vacateTenantWrite s.tenants tid } := by
  intro r' hr'
  simp only [vacateRoomWrite, List.mem_map] at hr'
  obtain ⟨r, hrmem, rfl⟩ := hr'
  by_cases hri : r.id = room.id
  · simp only [if_pos hri]
    simp
  · simp only [if_neg hri]
    exact h2 r hrmem

theorem guardedCall_preserves {s s' : OccState}
    (hstep : GuardedCall s s')
    (hwf : wfIds s) (h1 : inv1 s) (h2 : inv2 s) :
    wfIds s' ∧ inv1 s' ∧ inv2 s' := by
  cases hstep with
  | assign room t hr hv ht hta hu =>
    rw [handleTenantSelection_ok]
    refine ⟨⟨?_, ?_⟩, ?_, ?_⟩
    · rw [assignRoomWrite_map_id]
      exact hwf.1
    · rw [assignTenantWrite_map_id]
      exact hwf.2
    · exact inv1_assign s room t hwf.2 h1 h2 hr hv ht hu
    · exact inv2_assign s room t.id h2
  | vacate room hr =>
    cases htid : room.tenant_id with
    | none =>
      have : handleVacateRoom s room true true = (s, none) := by
        simp [handleVacateRoom, htid]
      rw [this]
      exact ⟨hwf, h1, h2⟩
    | some tid =>
      rw [handleVacateRoom_ok s room tid htid]
      refine ⟨⟨?_, ?_⟩, ?_, ?_⟩
      · rw [vacateRoomWrite_map_id]
        exact hwf.1
      · rw [vacateTenantWrite_map_id]
        exact hwf.2
      · exact inv1_vacate s room tid h1 hr htid
      · exact inv2_vacate s room tid h2

end Occupancy

namespace Occupancy

/-- Claim C1 (amended): along any sequence of completed (error-free)
`assignTenant`/`vacateRoom` calls made under the UI-enforced
preconditions (assignment only on a vacant room, only of an active
unassigned tenant) from a well-formed state satisfying invariants 1 and
2, both invariants hold after each call. -/
theorem guarded_calls_preserve_invariants (s s' : OccState)
    (hwf : wfIds s) (h1 : inv1 s) (h2 : inv2 s)
    (h : Relation.ReflTransGen GuardedCall s s') :
    wfIds s' ∧ inv1 s' ∧ inv2 s' := by
  induction h with
  | refl => exact ⟨hwf, h1, h2⟩
  | tail hab hstep ih => exact guardedCall_preserves hstep ih.1 ih.2.1 ih.2.2

/-- Witness for C1: one completed guarded assignment from a concrete
invariant-satisfying state, through the preservation theorem. -/
theorem claim1_witness :
    inv1 (handleTenantSelection okOccState okOccRoom okOccTenant.id true true).1 ∧
    inv2 (handleTenantSelection okOccState okOccRoom okOccTenant.id true true).1 := by
  have hstep : GuardedCall okOccState
      (handleTenantSelection okOccState okOccRoom okOccTenant.id true true).1 :=
    GuardedCall.assign okOccState okOccRoom okOccTenant (by decide) (by decide) (by decide)
      (by decide) (by decide)
  have h := guarded_calls_preserve_invariants okOccState
    (handleTenantSelection okOccState okOccRoom okOccTenant.id true true).1
    (by unfold wfIds; decide) (by unfold inv1; decide) (by unfold inv2; decide)
    (Relation.ReflTransGen.single hstep)
  exact ⟨h.2.1, h.2.2⟩

/-- Counterexample to C1 as stated: from a state satisfying both
invariants, a completed `handleTenantSelection` call (no error returned)
assigning an unassigned tenant to an already-occupied room leaves
invariant 1 violated — the code performs no precondition check, so not
every completed call preserves the invariants. -/
theorem claim1_counterexample :
    wfIds cexOccState ∧ inv1 cexOccState ∧ inv2 cexOccState ∧
    (handleTenantSelection cexOccState cexOccRoom 20 true true).2 = none ∧
    ¬ inv1 (handleTenantSelection cexOccState cexOccRoom 20 true true).1 := by
  unfold wfIds inv1 inv2
  decide

/-- Claim C2 (amended): when the second (tenant) write of an
`assignTenant` or `vacateRoom` call fails after the first (room) write
succeeded, no compensating write is issued — the error is surfaced and
the store keeps exactly the first write's effect, the tenant list
untouched. -/
theorem claim2_no_compensation (s : OccState) (room : Room) (tid tid' : Nat)
    (h : room.tenant_id = some tid') :
    handleTenantSelection s room tid true false =
      ({ s with rooms := assignRoomWrite s.rooms room.id tid },
        some "Gagal menambahkan penyewa ke kamar") ∧
    handleVacateRoom s room true false =
      ({ s with rooms := vacateRoomWrite s.rooms room.id },
        some "Gagal mengosongkan kamar") := by
  refine ⟨rfl, ?_⟩
  simp [handleVacateRoom, h]

/-- Witness for C2's amended theorem at a concrete occupied room. -/
theorem claim2_witness :
    handleTenantSelection cexOccState cexOccRoom 20 true false =
      ({ cexOccState with rooms := assignRoomWrite cexOccState.rooms cexOccRoom.id 20 },
        some "Gagal menambahkan penyewa ke kamar") ∧
    handleVacateRoom cexOccState cexOccRoom true false =
      ({ cexOccState with rooms := vacateRoomWrite cexOccState.rooms cexOccRoom.id },
        some "Gagal mengosongkan kamar") :=
  claim2_no_compensation cexOccState cexOccRoom 20 10 rfl

/-- Counterexample to C2 as stated: an `assignTenant` execution on a
vacant room whose room write succeeds and whose tenant write fails
surfaces an error, yet the resulting state differs from the pre-call
state — the room change is not reverted. -/
theorem claim2_counterexample :
    (handleTenantSelection okOccState okOccRoom 20 true false).2.isSome = true ∧
    (handleTenantSelection okOccState okOccRoom 20 true false).1 ≠ okOccState := by
  decide

/-- Claim C3 (amended): `handleTenantSelection` performs no conflict
check — invoked on a non-vacant room, or with a tenant of the store that
already has a room (with both writes succeeding), it completes without
any error and overwrites both sides of the assignment; the preconditions
exist only in the UI, whose selector lists exactly the active,
unassigned tenants (a tenant is listed iff it is in the store, active
and unassigned). -/
theorem claim3_no_conflict_check (s : OccState) (room : Room) (t : Tenant)
    (_h : ¬ room.status = RoomStatus.vacant ∨ (t ∈ s.tenants ∧ ¬ t.room_id = none)) :
    handleTenantSelection s room t.id true true =
      ({ rooms := assignRoomWrite s.rooms room.id t.id,
         tenants := assignTenantWrite s.tenants room.id t.id }, none) ∧
    ∀ (ts : List Tenant) (t' : Tenant), t' ∈ availableTenants ts ↔
      (t' ∈ ts ∧ t'.status = TenantStatus.active ∧ t'.room_id = none) := by
  refine ⟨rfl, ?_⟩
  intro ts t'
  simp only [availableTenants, List.mem_filter, Bool.and_eq_true, decide_eq_true_eq]

/-- Witness for C3's amended theorem: a vacant room receiving a concrete
already-assigned tenant. -/
theorem claim3_witness :
    handleTenantSelection mixedOccState mixedOccRoom mixedOccTenant.id true true =
      ({ rooms := assignRoomWrite mixedOccState.rooms mixedOccRoom.id mixedOccTenant.id,
         tenants :=
          assignTenantWrite mixedOccState.tenants mixedOccRoom.id mixedOccTenant.id },
        none) ∧
    ∀ (ts : List Tenant) (t' : Tenant), t' ∈ availableTenants ts ↔
      (t' ∈ ts ∧ t'.status = TenantStatus.active ∧ t'.room_id = none) :=
  claim3_no_conflict_check mixedOccState mixedOccRoom mixedOccTenant
    (Or.inr ⟨by decide, by decide⟩)

/-- Counterexample to C3 as stated: on an occupied room the call is not
rejected — it returns no error and changes the state — and an
already-assigned tenant put into a vacant room is likewise not rejected:
no error, state changed. -/
theorem claim3_counterexample :
    cexOccRoom.status ≠ RoomStatus.vacant ∧
    (handleTenantSelection cexOccState cexOccRoom 20 true true).2 = none ∧
    (handleTenantSelection cexOccState cexOccRoom 20 true true).1 ≠ cexOccState ∧
    mixedOccRoom.status = RoomStatus.vacant ∧
    mixedOccTenant ∈ mixedOccState.tenants ∧ mixedOccTenant.room_id ≠ none ∧
    (handleTenantSelection mixedOccState mixedOccRoom mixedOccTenant.id true true).2 = none ∧
    (handleTenantSelection mixedOccState mixedOccRoom mixedOccTenant.id true true).1 ≠
      mixedOccState := by
  decide

end Occupancy

namespace Ledger

theorem foldl_add_amount (l : List EnhancedPayment) (a : Int) :
    l.foldl (fun sum p => sum + p.amount) a = a + (l.map fun p => p.amount).sum := by
  induction l generalizing a with
  | nil => simp
  | cons p ps ih =>
    simp only [List.foldl_cons, List.map_cons, List.sum_cons, ih]
    ring

theorem sum_amount_partition (l : List EnhancedPayment) :
    ((l.filter fun p => decide (p.status = PayStatus.paid)).map fun p => p.amount).sum +
      ((l.filter fun p => decide (p.status = PayStatus.pending)).map fun p => p.amount).sum +
      ((l.filter fun p => decide (p.status = PayStatus.overdue)).map fun p => p.amount).sum =
      (l.map fun p => p.amount).sum := by
  induction l with
  | nil => simp
  | cons p ps ih =>
    cases hs : p.status <;> simp [List.filter_cons, hs] <;> omega

/-- Claim C8: for every date range the three aggregates sum to the total
amount of the date-filtered payments; with both bounds set the
date-filtered payments are exactly those whose due date lies in the
range, and with a missing bound they are all payments. -/
theorem claim8_aggregate_sum (l : List EnhancedPayment) (dateRange : DateRange) :
    totalPaid l dateRange + totalPending l dateRange + totalOverdue l dateRange =
      ((dateFilteredPayments l dateRange).map fun p => p.amount).sum ∧
    (¬ dateRange.start = "" → ¬ dateRange.endDate = "" →
      dateFilteredPayments l dateRange =
        l.filter fun p => strLe dateRange.start p.dueDate && strLe p.dueDate dateRange.endDate) ∧
    (dateRange.start = "" ∨ dateRange.endDate = "" → dateFilteredPayments l dateRange = l) := by
  refine ⟨?_, ?_, ?_⟩
  · unfold totalPaid totalPending totalOverdue
    rw [foldl_add_amount, foldl_add_amount, foldl_add_amount]
    have h := sum_amount_partition (dateFilteredPayments l dateRange)
    omega
  · intro h1 h2
    unfold dateFilteredPayments
    have : (dateRange.start = "" ∨ dateRange.endDate = "") = False := by
      simp [h1, h2]
    simp [this]
  · intro h
    unfold dateFilteredPayments
    simp [h]

/-- Witness for C8 at a concrete list and range with both bounds set. -/
theorem claim8_witness :
    totalPaid sampleLedger sampleRange + totalPending sampleLedger sampleRange +
        totalOverdue sampleLedger sampleRange =
      ((dateFilteredPayments sampleLedger sampleRange).map fun p => p.amount).sum ∧
    dateFilteredPayments sampleLedger sampleRange =
      sampleLedger.filter fun p =>
        strLe sampleRange.start p.dueDate && strLe p.dueDate sampleRange.endDate :=
  ⟨(claim8_aggregate_sum sampleLedger sampleRange).1,
    (claim8_aggregate_sum sampleLedger sampleRange).2.1 (by decide) (by decide)⟩

/-- Claim C10: when exactly one of the two date bounds is non-empty, the
due-date filter passes every payment — the lone bound is ignored. -/
theorem claim10_lone_bound_ignored (l : List EnhancedPayment) (r : DateRange)
    (h : (r.start = "" ∧ ¬ r.endDate = "") ∨ (¬ r.start = "" ∧ r.endDate = "")) :
    dateFilteredPayments l r = l := by
  unfold dateFilteredPayments
  rcases h with ⟨h1, _⟩ | ⟨_, h2⟩
  · simp [h1]
  · simp [h2]

/-- Witness for C10 at a concrete list with only the start bound set. -/
theorem claim10_witness : dateFilteredPayments sampleLedger loneBoundRange = sampleLedger :=
  claim10_lone_bound_ignored sampleLedger loneBoundRange (Or.inr ⟨by decide, by decide⟩)

/-- Claim C7 (amended): the record-payment submit on a selected payment
never rejects for status reasons — on remote success it returns no error
and overwrites every payment with the selected id with the submitted
data under status `paid` (so an already-paid payment is re-written, not
rejected, and the paid date is the submitted form date); on remote
failure the list is unchanged and an error message is surfaced.  Every
payment in the resulting list is either `paid` or an unchanged member of
the input, so a payment never moves from `paid` back to `pending` or
`overdue`. -/
theorem claim7_record_payment (allPayments : List Payment) (sel : Payment)
    (data : PaymentFormData) :
    handlePaymentSubmit allPayments sel data false =
      (allPayments, some "Failed to save payment. Please try again.") ∧
    (handlePaymentSubmit allPayments sel data true).2 = none ∧
    (∀ p ∈ (handlePaymentSubmit allPayments sel data true).1,
      p.status = PayStatus.paid ∨ p ∈ allPayments) ∧
    (applyPaymentData sel data).status = PayStatus.paid ∧
    (applyPaymentData sel data).date = data.date ∧
    (applyPaymentData sel data).paymentMethod = data.paymentMethod ∧
    (applyPaymentData sel data).notes = data.notes := by
  refine ⟨rfl, rfl, ?_, rfl, rfl, rfl, rfl⟩
  intro p hp
  simp only [handlePaymentSubmit, Bool.true_eq_false, if_false, List.mem_map] at hp
  obtain ⟨q, hq, rfl⟩ := hp
  by_cases hid : q.id = sel.id
  · simp only [if_pos hid]
    exact Or.inl rfl
  · simp only [if_neg hid]
    exact Or.inr hq

/-- Witness for C7's amended theorem at a concrete already-paid payment. -/
theorem claim7_witness :
    (handlePaymentSubmit [paidPayment] paidPayment resubmitData true).2 = none ∧
    ∀ p ∈ (handlePaymentSubmit [paidPayment] paidPayment resubmitData true).1,
      p.status = PayStatus.paid ∨ p ∈ [paidPayment] :=
  ⟨(claim7_record_payment [paidPayment] paidPayment resubmitData).2.1,
    (claim7_record_payment [paidPayment] paidPayment resubmitData).2.2.1⟩

/-- Counterexample to C7 as stated: submitting the record form for an
already-paid payment does not fail with any conflict error — it returns
no error and changes the stored record. -/
theorem claim7_counterexample :
    paidPayment.status = PayStatus.paid ∧
    (handlePaymentSubmit [paidPayment] paidPayment resubmitData true).2 = none ∧
    (handlePaymentSubmit [paidPayment] paidPayment resubmitData true).1 ≠ [paidPayment] := by
  decide

end Ledger

namespace Ledger

theorem lexCompare_swap (as bs : List Char) : lexCompare as bs = - lexCompare bs as := by
  induction as generalizing bs with
  | nil => cases bs <;> simp [lexCompare]
  | cons a as ih =>
    cases bs with
    | nil => simp [lexCompare]
    | cons b bs =>
      simp only [lexCompare]
      rcases Nat.lt_trichotomy a.toNat b.toNat with h | h | h
      · simp [h, Nat.lt_asymm h]
      · simp [h, Nat.lt_irrefl, ih]
      · simp [h, Nat.lt_asymm h]

theorem lexCompare_le_trans (as bs cs : List Char)
    (h1 : lexCompare as bs ≤ 0) (h2 : lexCompare bs cs ≤ 0) : lexCompare as cs ≤ 0 := by
  induction as generalizing bs cs with
  | nil => cases cs <;> simp [lexCompare]
  | cons a as ih =>
    cases bs with
    | nil => simp [lexCompare] at h1
    | cons b bs =>
      cases cs with
      | nil => simp [lexCompare] at h2
      | cons c cs =>
        simp only [lexCompare] at h1 h2 ⊢
        split_ifs at h1 h2 ⊢ <;> first | omega | exact ih bs cs h1 h2

theorem lexCompare_le_total (as bs : List Char) :
    lexCompare as bs ≤ 0 ∨ lexCompare bs as ≤ 0 := by
  have h := lexCompare_swap as bs
  omega

theorem comparePayments_swap (f : SortField) (a b : EnhancedPayment) :
    comparePayments f a b = - comparePayments f b a := by
  cases f with
  | tenantName => exact lexCompare_swap a.tenantName.data b.tenantName.data
  | roomNumber => exact lexCompare_swap a.roomNumber.data b.roomNumber.data
  | amount => simp only [comparePayments]; ring
  | dueDate => simp only [comparePayments]; ring
  | date => simp only [comparePayments]; ring

theorem comparePayments_le_trans (f : SortField) (a b c : EnhancedPayment)
    (h1 : comparePayments f a b ≤ 0) (h2 : comparePayments f b c ≤ 0) :
    comparePayments f a c ≤ 0 := by
  cases f with
  | tenantName => exact lexCompare_le_trans _ _ _ h1 h2
  | roomNumber => exact lexCompare_le_trans _ _ _ h1 h2
  | amount => simp only [comparePayments] at h1 h2 ⊢; omega
  | dueDate => simp only [comparePayments] at h1 h2 ⊢; omega
  | date => simp only [comparePayments] at h1 h2 ⊢; omega

theorem jsSortLe_trans (st : SortState) (a b c : EnhancedPayment)
    (h1 : jsSortLe st a b = true) (h2 : jsSortLe st b c = true) : jsSortLe st a c = true := by
  simp only [jsSortLe, decide_eq_true_eq, sortComparator] at h1 h2 ⊢
  by_cases ho : st.sortOrder = .asc
  · simp only [if_pos ho] at h1 h2 ⊢
    exact comparePayments_le_trans _ _ _ _ h1 h2
  · simp only [if_neg ho] at h1 h2 ⊢
    have hab := comparePayments_swap st.sortField a b
    have hbc := comparePayments_swap st.sortField b c
    have hac := comparePayments_swap st.sortField a c
    have h3 : comparePayments st.sortField c b ≤ 0 := by omega
    have h4 : comparePayments st.sortField b a ≤ 0 := by omega
    have h5 := comparePayments_le_trans st.sortField c b a h3 h4
    omega

theorem jsSortLe_total (st : SortState) (a b : EnhancedPayment) :
    (jsSortLe st a b || jsSortLe st b a) = true := by
  simp only [jsSortLe, Bool.or_eq_true, decide_eq_true_eq, sortComparator]
  have h := comparePayments_swap st.sortField a b
  by_cases ho : st.sortOrder = .asc
  · simp only [if_pos ho]
    omega
  · simp only [if_neg ho]
    omega

/-- Claim C9 (amended): requesting the current sort field again toggles
the order while keeping the field, requesting a new field installs it
with ascending order, and payments that compare equal on the current
sort field keep their relative order from the filtered input list (the
sort is stable) — they are not reordered by identifier. -/
theorem claim9_sort_toggle_and_stability :
    (∀ f o, handleSort ⟨f, o⟩ f =
      ⟨f, if o = SortOrder.asc then SortOrder.desc else SortOrder.asc⟩) ∧
    (∀ f o g, ¬ g = f → handleSort ⟨f, o⟩ g = ⟨g, SortOrder.asc⟩) ∧
    (∀ l dateRange searchQuery statusFilter st (a b : EnhancedPayment),
      comparePayments st.sortField a b = 0 →
      [a, b].Sublist ((dateFilteredPayments l dateRange).filter
        (matchesFilters searchQuery statusFilter)) →
      [a, b].Sublist (filteredAndSortedPayments l dateRange searchQuery statusFilter st)) := by
  refine ⟨?_, ?_, ?_⟩
  · intro f o
    simp [handleSort]
  · intro f o g hg
    unfold handleSort
    rw [if_neg (fun h => hg (Eq.symm h))]
  · intro l dateRange searchQuery statusFilter st a b hcmp hsub
    unfold filteredAndSortedPayments
    apply List.pair_sublist_mergeSort (jsSortLe_trans st) (jsSortLe_total st) ?_ hsub
    simp only [jsSortLe, decide_eq_true_eq, sortComparator, hcmp]
    split <;> omega

end Ledger

namespace Ledger

/-- Witness for C9's amended theorem: a toggle, a field reset, and a
concrete tied pair kept in input order by the sorted view. -/
theorem claim9_witness :
    handleSort ⟨SortField.amount, SortOrder.asc⟩ SortField.amount =
      ⟨SortField.amount, SortOrder.desc⟩ ∧
    handleSort ⟨SortField.amount, SortOrder.asc⟩ SortField.dueDate =
      ⟨SortField.dueDate, SortOrder.asc⟩ ∧
    [tiedA, tiedB].Sublist (filteredAndSortedPayments [tiedA, tiedB] emptyRange "" "all"
      ⟨SortField.amount, SortOrder.asc⟩) := by
  refine ⟨?_, ?_, ?_⟩
  · have h := claim9_sort_toggle_and_stability.1 SortField.amount SortOrder.asc
    simpa using h
  · exact claim9_sort_toggle_and_stability.2.1 SortField.amount SortOrder.asc SortField.dueDate
      (by decide)
  · refine claim9_sort_toggle_and_stability.2.2 [tiedA, tiedB] emptyRange "" "all"
      ⟨SortField.amount, SortOrder.asc⟩ tiedA tiedB (by decide) ?_
    have hfil : (dateFilteredPayments [tiedA, tiedB] emptyRange).filter
        (matchesFilters "" "all") = [tiedA, tiedB] := by decide
    rw [hfil]

/-- Counterexample to C9 as stated: two payments tie on the current sort
field (`amount`) with identifiers in descending input order; the sorted
view keeps the input order `[2, 1]` instead of ordering the tie by the
stable identifier. -/
theorem claim9_counterexample :
    comparePayments SortField.amount tiedA tiedB = 0 ∧
    tiedB.id < tiedA.id ∧
    (filteredAndSortedPayments [tiedA, tiedB] emptyRange "" "all"
      ⟨SortField.amount, SortOrder.asc⟩).map (fun p => p.id) = [2, 1] := by
  refine ⟨by decide, by decide, ?_⟩
  have hfil : (dateFilteredPayments [tiedA, tiedB] emptyRange).filter
      (matchesFilters "" "all") = [tiedA, tiedB] := by decide
  unfold filteredAndSortedPayments
  rw [hfil, List.mergeSort_of_sorted (by decide)]
  decide

end Ledger

namespace NotifHub

/-- Claim C4 (amended): every mutating notification operation issues the
remote write first and applies the local cache update only after it
succeeds; a remote failure leaves the cache unchanged (there is no
optimistic update to roll back) and no error reaches the caller (the
catch only logs); consequently an update is never left applied only
locally. -/
theorem claim4_remote_first (op : NotifOp) (ns : List Notification)
    (hasSession remoteOk : Bool) :
    (runNotifOp op ns hasSession remoteOk).surfaced = none ∧
    (remoteOk = false → (runNotifOp op ns hasSession remoteOk).notifications = ns) ∧
    ((runNotifOp op ns hasSession remoteOk).trace = [] ∨
      (runNotifOp op ns hasSession remoteOk).trace = [CacheEvent.remoteWrite] ∨
      (runNotifOp op ns hasSession remoteOk).trace =
        [CacheEvent.remoteWrite, CacheEvent.localUpdate]) ∧
    ((runNotifOp op ns hasSession remoteOk).notifications ≠ ns →
      hasSession = true ∧ remoteOk = true) := by
  cases op <;> cases hasSession <;> cases remoteOk <;>
    simp [runNotifOp, markAsRead, markAllAsRead, deleteNotification, createNotification]

/-- Witness for C4's amended theorem: a failing `markAsRead` leaves the
concrete cache unchanged. -/
theorem claim4_witness :
    (runNotifOp (NotifOp.mark 1) [cexNotif] true false).notifications = [cexNotif] :=
  (claim4_remote_first (NotifOp.mark 1) [cexNotif] true false).2.1 rfl

/-- Counterexample to C4 as stated: a `markAsRead` whose remote write
fails has issued the remote write as its first (and only) event — no
local update preceded it — and surfaces no error to the caller, where
the claim requires the local update to come first and the error to be
surfaced. -/
theorem claim4_counterexample :
    (markAsRead [cexNotif] 1 true false).surfaced = none ∧
    (markAsRead [cexNotif] 1 true false).trace = [CacheEvent.remoteWrite] ∧
    ¬ (markAsRead [cexNotif] 1 true false).trace.head? = some CacheEvent.localUpdate := by
  decide

end NotifHub

namespace HubLifecycle

theorem markLastCleanup_length (rs : List EffectRun) :
    (markLastCleanup rs).length = rs.length := by
  induction rs with
  | nil => rfl
  | cons r rest ih =>
    cases rest with
    | nil => rfl
    | cons r2 rest2 =>
      simp only [markLastCleanup, List.length_cons] at ih ⊢
      omega

theorem markLastCleanup_marks (rs : List EffectRun) (d : EffectRun)
    (hprev : ∀ i, i + 1 < rs.length → (rs.getD i d).cleanupRequested = true) :
    ∀ i, i < rs.length → ((markLastCleanup rs).getD i d).cleanupRequested = true := by
  induction rs with
  | nil =>
    intro i h
    simp at h
  | cons r rest ih =>
    cases rest with
    | nil =>
      intro i h
      have hi : i = 0 := by
        simp only [List.length_cons, List.length_nil] at h
        omega
      subst hi
      simp [markLastCleanup]
    | cons r2 rest2 =>
      intro i h
      cases i with
      | zero =>
        have h0 := hprev 0 (by simp only [List.length_cons]; omega)
        simpa [markLastCleanup] using h0
      | succ j =>
        have hj : j < (r2 :: rest2).length := by
          simp only [List.length_cons] at h ⊢
          omega
        have hprev2 : ∀ i, i + 1 < (r2 :: rest2).length →
            ((r2 :: rest2).getD i d).cleanupRequested = true := by
          intro i hi
          have := hprev (i + 1) (by simp only [List.length_cons] at hi ⊢; omega)
          simpa using this
        have := ih hprev2 j hj
        simpa [markLastCleanup] using this

theorem hubStep_preserves {s s' : HubState} (hstep : HubStep s s')
    (ih : supersededMarked s) : supersededMarked s' := by
  cases hstep with
  | switch sc =>
    intro i hi
    simp only [switchStep, List.length_append, List.length_cons, List.length_nil,
      markLastCleanup_length] at hi
    have hi2 : i < s.runs.length := by omega
    simp only [switchStep]
    have happ : (markLastCleanup s.runs ++ [freshRun sc]).getD i (freshRun 0) =
        (markLastCleanup s.runs).getD i (freshRun 0) := by
      rw [List.getD_eq_getElem?_getD, List.getD_eq_getElem?_getD,
        List.getElem?_append_left (by rw [markLastCleanup_length]; exact hi2)]
    rw [happ]
    exact markLastCleanup_marks s.runs (freshRun 0) ih i hi2
  | resolve i2 hlen hres =>
    intro i hi
    simp only [resolveStep, List.length_set] at hi
    simp only [resolveStep]
    rw [List.getD_eq_getElem?_getD, List.getElem?_set]
    by_cases hij : i2 = i
    · subst hij
      rw [if_pos rfl, if_pos hlen]
      exact ih i2 hi
    · rw [if_neg hij, ← List.getD_eq_getElem?_getD]
      exact ih i hi
  | fire i2 hlen hcr hsr hun =>
    intro i hi
    simp only [fireStep, List.length_set] at hi
    simp only [fireStep]
    rw [List.getD_eq_getElem?_getD, List.getElem?_set]
    by_cases hij : i2 = i
    · subst hij
      rw [if_pos rfl, if_pos hlen]
      exact ih i2 hi
    · rw [if_neg hij, ← List.getD_eq_getElem?_getD]
      exact ih i hi

/-- Claim C5 (amended): in every state reachable from a mounted provider,
every effect run other than the most recent has had its teardown
requested — the cleanup is requested synchronously at the scope switch,
before the new run starts, though the unsubscribe itself only fires once
the superseded run's setup has resolved. -/
theorem claim5_teardown_requested (scope : Nat) (s : HubState)
    (h : Relation.ReflTransGen HubStep (hubInit scope) s) : supersededMarked s := by
  induction h with
  | refl =>
    intro i hi
    simp [hubInit] at hi
  | tail hab hstep ih => exact hubStep_preserves hstep ih

/-- Witness for C5's amended theorem after one concrete scope switch. -/
theorem claim5_witness : supersededMarked (switchStep (hubInit 0) 1) :=
  claim5_teardown_requested 0 (switchStep (hubInit 0) 1)
    (Relation.ReflTransGen.single (HubStep.switch (hubInit 0) 1))

/-- Counterexample to C5 as stated: the scope switches while the first
run's setup is still awaiting the session; the new run's setup resolves
first, then the old run's setup resolves and subscribes.  The resulting
state is reachable and holds two live subscriptions — the teardown of
the old subscription did not happen strictly before the new subscribe. -/
theorem claim5_counterexample :
    Relation.ReflTransGen HubStep (hubInit 0) hubBad ∧ liveCount hubBad = 2 := by
  constructor
  · have h1 : HubStep (hubInit 0) (switchStep (hubInit 0) 1) := HubStep.switch (hubInit 0) 1
    have h2 : HubStep (switchStep (hubInit 0) 1)
        (resolveStep (switchStep (hubInit 0) 1) 1) :=
      HubStep.resolve (switchStep (hubInit 0) 1) 1 (by decide) (by decide)
    have h3 : HubStep (resolveStep (switchStep (hubInit 0) 1) 1)
        (resolveStep (resolveStep (switchStep (hubInit 0) 1) 1) 0) :=
      HubStep.resolve (resolveStep (switchStep (hubInit 0) 1) 1) 0 (by decide) (by decide)
    have heq : resolveStep (resolveStep (switchStep (hubInit 0) 1) 1) 0 = hubBad := by decide
    exact Relation.ReflTransGen.head h1 (Relation.ReflTransGen.head h2
      (heq ▸ Relation.ReflTransGen.single h3))
  · decide

end HubLifecycle

namespace ScopeFetch

/-- Claim C6 (amended): `loadData` performs no scope comparison when a
response arrives — the response for the scope captured at request time is
always stored into component state, whatever scope is active at arrival
time, which stays unchanged by the arrival. -/
theorem claim6_response_always_stored (s : PageState) (scope : Nat) :
    (applyLoadResponse s scope).storedScope = some scope ∧
    (applyLoadResponse s scope).activeScope = s.activeScope :=
  ⟨rfl, rfl⟩

/-- Counterexample to C6 as stated: a fetch for scope 0 is in flight, the
scope switches to 1, and the scope-0 response then arrives; it is stored
rather than discarded, so scope-0 data is held while scope 1 is active. -/
theorem claim6_counterexample :
    Relation.ReflTransGen PageStep pageInit pageBad ∧
    pageBad.activeScope = some 1 ∧ pageBad.storedScope = some 0 := by
  constructor
  · have h1 : PageStep pageInit (selectScope pageInit 0) := PageStep.select pageInit 0
    have h2 : PageStep (selectScope pageInit 0) (selectScope (selectScope pageInit 0) 1) :=
      PageStep.select (selectScope pageInit 0) 1
    have h3 : PageStep (selectScope (selectScope pageInit 0) 1)
        (applyLoadResponse (selectScope (selectScope pageInit 0) 1) 0) :=
      PageStep.respond (selectScope (selectScope pageInit 0) 1) 0 (by decide)
    have heq : applyLoadResponse (selectScope (selectScope pageInit 0) 1) 0 = pageBad := by
      decide
    exact Relation.ReflTransGen.head h1 (Relation.ReflTransGen.head h2
      (heq ▸ Relation.ReflTransGen.single h3))
  · exact ⟨rfl, rfl⟩

end ScopeFetch
